import Mathlib

/-!
Verification development for the itinerary-scheduling and geospatial
route-optimization engine (region resolution, candidate filtering, route
computation with geometric fallback, permutation-based route optimization,
day scheduling and multi-day itinerary planning).

Python strings are modelled as `List Char` (`Str`); Python dicts with a
known key set are modelled as structures with `Option` fields; external
providers (geocoding, directions, fuzzy string scoring, vector search) are
modelled as oracle function parameters.  Machine integers are `Nat`/`Int`
(the values involved are small and nonnegative, no overflow in range).
Float arithmetic of the geometric fallback is modelled over `ℝ`.  Calls
that raise an uncaught `TypeError` — the scheduler awaits the synchronous
`get_detailed_route`, and its caller iterates an unawaited coroutine — are
modelled with the explicit outcome type `PyResult`.
-/

/-- Python `str` modelled as a list of characters. -/
abbrev Str := List Char

/-- Character data of a Lean string literal. -/
def sd (s : String) : Str := s.data

/-- Python substring test `needle in hay`. -/
def pyIn (needle : Str) (hay : Str) : Bool :=
  match hay with
  | [] => needle.isEmpty
  | _ :: rest => needle.isPrefixOf hay || pyIn needle rest

/-- Python `str.lower()` (character-wise). -/
def lowerS (s : Str) : Str := s.map Char.toLower

/-- Whitespace test used by `str.strip()` / `str.split()`. -/
def wsB (c : Char) : Bool := c.isWhitespace

/-- Python `str.strip()`: drop leading and trailing whitespace. -/
def stripL (s : Str) : Str :=
  ((s.dropWhile wsB).reverse.dropWhile wsB).reverse

/-- Helper for `pyReplace`, with explicit fuel (`s.length` suffices since
every step consumes at least one character of `s`). -/
def pyReplaceFuel : Nat → Str → Str → Str → Str
  | 0, s, _, _ => s
  | _ + 1, [], _, _ => []
  | n + 1, c :: rest, pat, rep =>
    if !pat.isEmpty && pat.isPrefixOf (c :: rest) then
      rep ++ pyReplaceFuel n ((c :: rest).drop pat.length) pat rep
    else
      c :: pyReplaceFuel n rest pat rep

/-- Python `s.replace(pat, rep)` for a non-empty pattern: replace all
non-overlapping occurrences, scanning left to right. -/
def pyReplace (s pat rep : Str) : Str := pyReplaceFuel s.length s pat rep

/-- Helper for `words`: split on whitespace, no empty tokens. -/
def wordsAux : Str → Str → List Str
  | [], acc => if acc.isEmpty then [] else [acc.reverse]
  | c :: rest, acc =>
    if wsB c then
      if acc.isEmpty then wordsAux rest [] else acc.reverse :: wordsAux rest []
    else wordsAux rest (c :: acc)

/-- Python `str.split()` with no argument: whitespace-separated tokens,
empties removed (also models `re.sub(r"\s+", " ", q).strip().split()`). -/
def words (s : Str) : List Str := wordsAux s []

/-- Split on a single separator character, keeping empty fields
(Python `str.split(sep)`). -/
def splitCharAux (sep : Char) : Str → Str → List Str
  | [], acc => [acc.reverse]
  | c :: rest, acc =>
    if c = sep then acc.reverse :: splitCharAux sep rest []
    else splitCharAux sep rest (c :: acc)

/-- Python `s.split(sep)` for a one-character separator. -/
def splitChar (sep : Char) (s : Str) : List Str := splitCharAux sep s []

/-- Parse a nonempty all-digit token as a natural number (Python `int(...)`
restricted to the nonnegative decimal inputs that occur here). -/
def digitsToNat? (s : Str) : Option Nat :=
  if !s.isEmpty && s.all Char.isDigit then
    some (s.foldl (fun n c => n * 10 + (c.toNat - 48)) 0)
  else none

/-- Python `" ".join(parts)`. -/
def joinSpace (parts : List Str) : Str := (parts.intersperse (sd (" "))).flatten

/- ----------------------------------------------------------------------
src/region_cut_fuzz.py
---------------------------------------------------------------------- -/

/-- `CANON`: the canonical top-level region names (src/region_cut_fuzz.py). -/
def CANON : List Str :=
  [sd ("서울"), sd ("부산"), sd ("대구"), sd ("인천"), sd ("광주"), sd ("대전"),
   sd ("울산"), sd ("세종"), sd ("경기"), sd ("강원"), sd ("충북"), sd ("충남"),
   sd ("전북"), sd ("전남"), sd ("경북"), sd ("경남"), sd ("제주")]

/-- `ALIASES`: alias table, in dict insertion order; each entry is
(canonical name, alias set as a list). -/
def ALIASES : List (Str × List Str) :=
  [(sd ("서울"), [sd ("서울시"), sd ("서울특별시"), sd ("seoul"), sd ("서울특")]),
   (sd ("부산"), [sd ("부산시"), sd ("부산광역시"), sd ("busan")]),
   (sd ("대구"), [sd ("대구시"), sd ("대구광역시"), sd ("daegu")]),
   (sd ("인천"), [sd ("인천시"), sd ("인천광역시"), sd ("incheon")]),
   (sd ("광주"), [sd ("광주시"), sd ("광주광역시"), sd ("gwangju")]),
   (sd ("대전"), [sd ("대전시"), sd ("대전광역시"), sd ("daejeon")]),
   (sd ("울산"), [sd ("울산시"), sd ("울산광역시"), sd ("ulsan")]),
   (sd ("세종"), [sd ("세종시"), sd ("세종특별자치시"), sd ("sejong")]),
   (sd ("경기"), [sd ("경기도"), sd ("gyeonggi")]),
   (sd ("강원"), [sd ("강원도"), sd ("gangwon"), sd ("강원특별자치도")]),
   (sd ("충북"), [sd ("충청북도"), sd ("chungbuk")]),
   (sd ("충남"), [sd ("충청남도"), sd ("chungnam")]),
   (sd ("전북"), [sd ("전라북도"), sd ("jeonbuk"), sd ("전북특별자치도")]),
   (sd ("전남"), [sd ("전라남도"), sd ("jeonnam")]),
   (sd ("경북"), [sd ("경상북도"), sd ("gyeongbuk")]),
   (sd ("경남"), [sd ("경상남도"), sd ("gyeongnam")]),
   (sd ("제주"), [sd ("제주도"), sd ("jeju"), sd ("제주특별자치도")])]

/-- `MACROS`: macro-region expansion table, in dict insertion order. -/
def MACROS : List (Str × List Str) :=
  [(sd ("수도권"), [sd ("서울"), sd ("경기"), sd ("인천")]),
   (sd ("부울경"), [sd ("부산"), sd ("울산"), sd ("경남")]),
   (sd ("영남"), [sd ("부산"), sd ("대구"), sd ("울산"), sd ("경북"), sd ("경남")]),
   (sd ("호남"), [sd ("광주"), sd ("전북"), sd ("전남")]),
   (sd ("충청권"), [sd ("대전"), sd ("세종"), sd ("충북"), sd ("충남")]),
   (sd ("강원권"), [sd ("강원")]),
   (sd ("제주권"), [sd ("제주")]),
   (sd ("서울근교"), [sd ("서울"), sd ("경기"), sd ("인천")]),
   (sd ("수도"), [sd ("서울")])]

/-- Separator characters of `SEP = re.compile(r"[,\|/·\-]")`. -/
def sepChar (c : Char) : Bool :=
  c = ',' || c = '|' || c = '/' || c = '·' || c = '-'

/-- `_tokenize_query`: replace separators by spaces, collapse whitespace,
strip, split. -/
def tokenizeQuery (q : Str) : List Str :=
  words (q.map (fun c => if sepChar c then ' ' else c))

/-- First alias-table entry whose alias set contains `q`
(the loop `for canon, alias_set in ALIASES.items(): if q in alias_set`). -/
def aliasLookup (q : Str) : Option Str :=
  (ALIASES.find? (fun p => p.2.contains q)).map (fun p => p.1)

/-- The suffix-stripping chain of `normalize_region_name` step 3. -/
def simpleNameOf (q : Str) : Str :=
  pyReplace (pyReplace (pyReplace (pyReplace (pyReplace (pyReplace q
    (sd ("특별시")) []) (sd ("광역시")) []) (sd ("특별자치시")) [])
    (sd ("특별자치도")) []) (sd ("도")) []) (sd ("시")) []

/-- `normalize_region_name` (src/region_cut_fuzz.py lines 55-76). -/
def normalize_region_name (query : Str) : Str :=
  let q := stripL query
  if q ∈ CANON then q
  else
    match aliasLookup q with
    | some canon => canon
    | none =>
      let simpleName := simpleNameOf q
      if simpleName ∈ CANON then simpleName else q

/-- Tier 1 of `parse_regions_from_query`: exact containment of a canonical
name in the raw query, starting from an arbitrary accumulator. -/
def tier1From (query : Str) (found : Finset Str) : Finset Str :=
  CANON.foldl (fun fs c => if pyIn c query then insert c fs else fs) found

/-- Tier 2: macro-region keyword expansion (raw query), from an accumulator. -/
def tier2From (query : Str) (found : Finset Str) : Finset Str :=
  MACROS.foldl (fun fs m => if pyIn m.1 query then fs ∪ m.2.toFinset else fs) found

/-- Tier 3: alias containment against the lowercased query, from an
accumulator. -/
def tier3From (q : Str) (found : Finset Str) : Finset Str :=
  ALIASES.foldl
    (fun fs p => if p.2.any (fun a => pyIn (lowerS a) q) then insert p.1 fs else fs)
    found

/-- Tier 4: fuzzy token match.  `extractOne(t, CANON, scorer=fuzz.WRatio)` is
modelled by the oracle, which returns the best candidate and its score. -/
def tier4From (oracle : Str → Str × Nat) (threshold : Nat) (tokens : List Str)
    (found : Finset Str) : Finset Str :=
  tokens.foldl
    (fun fs t =>
      if t.length < 2 then fs
      else if threshold ≤ (oracle t).2 then insert (oracle t).1 fs else fs)
    found

/-- `parse_regions_from_query` (src/region_cut_fuzz.py lines 78-115): the four
match loops run one after another on the same accumulator `found`. -/
def parse_regions_from_query (oracle : Str → Str × Nat) (query : Str)
    (fuzzy : Bool) (fuzzy_threshold : Nat) : Finset Str :=
  let q := lowerS query
  let tokens := tokenizeQuery q
  let found : Finset Str := ∅
  let found := tier1From query found
  let found := tier2From query found
  let found := tier3From q found
  if fuzzy then tier4From oracle fuzzy_threshold tokens found else found

/-- Modelled from the spec: the gated resolution order the spec describes
for `RegionResolver.normalize` — "each tier only attempted if the previous
yields nothing".  This definition follows the spec words, not the source,
and exists to be compared with `parse_regions_from_query`. -/
def specGatedResolve (oracle : Str → Str × Nat) (query : Str)
    (fuzzy : Bool) (fuzzy_threshold : Nat) : Finset Str :=
  let q := lowerS query
  let tokens := tokenizeQuery q
  let t1 := tier1From query ∅
  if t1 ≠ ∅ then t1
  else
    let t2 := tier2From query ∅
    if t2 ≠ ∅ then t2
    else
      let t3 := tier3From q ∅
      if t3 ≠ ∅ then t3
      else if fuzzy then tier4From oracle fuzzy_threshold tokens ∅ else ∅

/-- A langchain `Document`: only its metadata dict matters here. -/
structure Doc where
  metadata : List (Str × Str)
deriving DecidableEq

/-- Dict lookup `metadata.get(field)`. -/
def mdGet (md : List (Str × Str)) (field : Str) : Option Str :=
  (md.find? (fun p => p.1 == field)).map (fun p => p.2)

/-- Per-document predicate of the loop body of `filter_docs_by_region`:
a document is appended iff it substring-matches some allowed region, or its
region is unknown (empty or "nan") and `drop_unknown` is false. -/
def regionKeep (allowed : List Str) (field : Str) (drop_unknown : Bool)
    (d : Doc) : Bool :=
  let reg := (mdGet d.metadata field).getD []
  let isMatch := allowed.any (fun target => pyIn target reg)
  isMatch || ((reg.isEmpty || reg == sd ("nan")) && !drop_unknown)

/-- `filter_docs_by_region` (src/region_cut_fuzz.py lines 117-137).  The
Python set `allowed` is modelled as a list (only membership is used). -/
def filter_docs_by_region (docs : List Doc) (allowed : List Str) (field : Str)
    (drop_unknown : Bool) : List Doc :=
  if allowed.isEmpty then docs
  else docs.filter (regionKeep allowed field drop_unknown)

/- ----------------------------------------------------------------------
src/search.py — RegionPreFilteringRetriever
---------------------------------------------------------------------- -/

/-- Suffix table of `_normalize_region_part` ("긴 접미사 우선 제거"),
in source order. -/
def PART_SUFFIXES : List Str :=
  [sd ("특별자치시"), sd ("특별자치도"), sd ("광역시"), sd ("특별시"),
   sd ("남도"), sd ("북도")]

/-- Python `part.endswith(suffix)`. -/
def endsWithS (suffix s : Str) : Bool := suffix.reverse.isPrefixOf s.reverse

/-- `RegionPreFilteringRetriever._normalize_region_part`
(src/search.py lines 18-31). -/
def normalizeRegionPart (part : Str) : Str :=
  if part.isEmpty then []
  else
    match PART_SUFFIXES.find? (fun suffix => endsWithS suffix part) with
    | some suffix => pyReplace part suffix []
    | none =>
      if 2 < part.length &&
          (endsWithS (sd ("도")) part || endsWithS (sd ("시")) part ||
           endsWithS (sd ("군")) part || endsWithS (sd ("구")) part) then
        part.dropLast
      else part

/-- The query-side targets of `_get_relevant_documents`: split
`fixed_location` on whitespace and normalize each part (empty/None
`fixed_location` is falsy, giving no targets). -/
def computeTargets (fixed_location : Str) : List Str :=
  if fixed_location.isEmpty then []
  else (words fixed_location).map normalizeRegionPart

/-- The raw region text of a candidate document:
`str(metadata.get("지역") or metadata.get("region") or "").strip()`
(a present but empty value is falsy and falls through). -/
def rawRegionText (md : List (Str × Str)) : Str :=
  let a := (mdGet md (sd ("지역"))).getD []
  let b := (mdGet md (sd ("region"))).getD []
  stripL (if a.isEmpty then b else a)

/-- The parsed sub-parts of a document's region text:
`[self._normalize_region_part(p) for p in region_str.split()]`. -/
def docPartsOf (regionStr : Str) : List Str :=
  (words regionStr).map normalizeRegionPart

/-- `is_valid_region` inside `_get_relevant_documents`
(src/search.py lines 44-81). -/
def isValidRegion (targets : List Str) (md : List (Str × Str)) : Bool :=
  if targets.isEmpty then true
  else
    let regionStr := rawRegionText md
    if regionStr.isEmpty || regionStr == sd ("nan") then false
    else
      let docParts := docPartsOf regionStr
      match targets with
      | [target] => docParts.any (fun dp => pyIn target dp || pyIn dp target)
      | _ =>
        let docFullStr := joinSpace docParts
        targets.all (fun t => pyIn t docFullStr)

/-- Modelled from the spec: the single-token acceptance condition as the
spec words it — "accept when any parsed sub-token of the candidate's
address-line text matches" (matching in either containment direction).
Written from the spec to be compared with `isValidRegion`. -/
def specSingleTokenMatch (target : Str) (md : List (Str × Str)) : Bool :=
  (docPartsOf (rawRegionText md)).any
    (fun dp => pyIn target dp || pyIn dp target)

/- ----------------------------------------------------------------------
src/scheduler/smart_scheduler.py — SmartScheduler
---------------------------------------------------------------------- -/

/-- A venue dict as read by `plan_day`: `name` is required there, the other
keys are read with `.get` defaults. -/
structure Venue where
  vname : Str
  vtype : Option Str
  vdescription : Option Str
  vday : Option Nat

/-- A timeline item: the two dict shapes `plan_day` appends.  The `start`
and `end` dict entries are `strftime("%H:%M")` strings; they are modelled
by the displayed minute of day (`hmOf` of the cursor), which determines the
string exactly.  The `move` shape (keys from/to/start/end/duration_min/
transport_mode/transport_detail/duration_text_raw) is what the `i > 0` loop
body would build; that code sits below the failing `await` and is
unreachable — see `plan_day`. -/
inductive Item where
  | activity (name category : Str) (startHM endHM : Nat)
      (durationMinutes : Nat) (description : Str)
  | move (fromName toName : Str) (startHM endHM : Nat) (durationMin : Nat)
      (transportMode : Str) (transportDetail : Str) (durationTextRaw : Str)
deriving DecidableEq

/-- Displayed minute of day of a cursor value in seconds: the content of
`cursor.strftime("%H:%M")`. -/
def hmOf (secs : Nat) : Nat := (secs / 60) % 1440

/-- `DEFAULT_DURATIONS` (dict insertion order matters for the `in` scan). -/
def DEFAULT_DURATIONS : List (Str × Nat) :=
  [(sd ("식당"), 90), (sd ("카페"), 60), (sd ("관광지"), 120),
   (sd ("산책로"), 60), (sd ("테마파크"), 180), (sd ("숙소"), 0)]

/-- `SmartScheduler._estimate_duration`. -/
def estimateDuration (v : Venue) : Nat :=
  let placeType := v.vtype.getD (sd ("관광지"))
  let placeName := v.vname
  match DEFAULT_DURATIONS.find? (fun p => pyIn p.1 placeType) with
  | some p => p.2
  | none =>
    if pyIn (sd ("카페")) placeName then 60
    else if pyIn (sd ("식당")) placeName then 90
    else 90

/-- Outcome of running a Python callable to completion: a returned value,
or an uncaught `TypeError`. -/
inductive PyResult (α : Type) where
  | ok (val : α)
  | typeError
deriving DecidableEq

/-- Day-start cursor (seconds into the day): day 1 keeps the scheduler's
configured start time, every later day is reset to 10:00 (600 minutes). -/
def dayStartSeconds (startMin : Nat) (dayNum : Nat) : Nat :=
  (if dayNum = 1 then startMin else 600) * 60

/-- `SmartScheduler.plan_day` (src/scheduler/smart_scheduler.py lines
43-137), run as an awaited coroutine.  `startMin` is the scheduler's
`default_start_time` in minutes of day; dates cancel out of the emitted
`%H:%M` fields and are omitted.  The loop appends the first venue's
activity item at `i = 0`; at every `i > 0` it executes
`route_result = await get_detailed_route(...)` (line 81), but
`get_detailed_route` (src/tools.py line 518) is a plain synchronous
function, so the call returns a dict or `None` and awaiting that value
raises `TypeError`: the coroutine never returns a timeline for two or more
venues, and the move-building code below the `await` never runs. -/
def plan_day (startMin : Nat) (places : List Venue) : PyResult (List Item) :=
  match places with
  | [] => .ok []
  | [v] =>
    let dayNum := v.vday.getD 1
    let cursor := dayStartSeconds startMin dayNum
    let stay := estimateDuration v
    .ok [Item.activity v.vname (v.vtype.getD (sd ("장소"))) (hmOf cursor)
      (hmOf (cursor + stay * 60)) stay (v.vdescription.getD [])]
  | _ :: _ :: _ => .typeError

/-- Constructor parsing of `SmartScheduler(start_time_str)`:
`h, m = map(int, s.split(":"))` then `datetime.time(h, m)`, falling back to
10:00 on any `ValueError` (wrong arity, non-numeric, out of range). -/
def parseStartTime (s : Str) : Nat :=
  match (splitChar ':' s).map digitsToNat? with
  | [some h, some m] => if h ≤ 23 && m ≤ 59 then h * 60 + m else 600
  | _ => 600

/-- Displayed start minute of an item. -/
def itemStart : Item → Nat
  | Item.activity _ _ s _ _ _ => s
  | Item.move _ _ s _ _ _ _ _ => s

/-- Start minute of the first item of a returned timeline, when the call
returned a non-empty timeline at all. -/
def firstStart : PyResult (List Item) → Option Nat
  | .ok (it :: _) => some (itemStart it)
  | _ => none

/- ----------------------------------------------------------------------
src/tools.py — plan_itinerary_timeline
---------------------------------------------------------------------- -/

/-- An input itinerary dict as inspected by `plan_itinerary_timeline`:
each key the function reads, possibly missing. -/
structure InItem where
  iday : Option Nat
  iname : Option Str
  iplace : Option Str
  iplaceName : Option Str
  ititle : Option Str
  ilocation : Option Str
  idescription : Option Str
  itype : Option Str
deriving DecidableEq

/-- Name recovery of `plan_itinerary_timeline`: when `name` is missing, the
first present key among `place`, `place_name`, `title`, `location` is
assigned, defaulting to `description` or the literal fallback. -/
def recoverName (it : InItem) : InItem :=
  match it.iname with
  | some _ => it
  | none =>
    let fallback := it.idescription.getD (sd ("이름 미상"))
    let found :=
      match it.iplace, it.iplaceName, it.ititle, it.ilocation with
      | some v, _, _, _ => v
      | none, some v, _, _ => v
      | none, none, some v, _ => v
      | none, none, none, some v => v
      | none, none, none, none => fallback
    ⟨it.iday, some found, it.iplace, it.iplaceName, it.ititle, it.ilocation,
     it.idescription, it.itype⟩

/-- Type recovery of `plan_itinerary_timeline`: a missing `type` key is set
to the literal string "activity". -/
def recoverType (it : InItem) : InItem :=
  match it.itype with
  | some _ => it
  | none =>
    ⟨it.iday, it.iname, it.iplace, it.iplaceName, it.ititle, it.ilocation,
     it.idescription, some (sd ("activity"))⟩

/-- Insertion step for ascending sort (models Python `sorted`). -/
def insSorted (a : Nat) : List Nat → List Nat
  | [] => [a]
  | b :: t => if a ≤ b then a :: b :: t else b :: insSorted a t

/-- Ascending insertion sort on naturals (models Python `sorted`). -/
def sortNat : List Nat → List Nat
  | [] => []
  | a :: t => insSorted a (sortNat t)

/-- `days = sorted(list(set(item.get('day', 1) for item in itinerary)))`. -/
def daysOf (itinerary : List InItem) : List Nat :=
  sortNat ((itinerary.map (fun it => it.iday.getD 1)).dedup)

/-- `day_places`: the items of one day, in input order
(`[item for item in itinerary if item.get('day', 1) == day]`). -/
def dayPlaces (itinerary : List InItem) (day : Nat) : List InItem :=
  itinerary.filter (fun it => it.iday.getD 1 == day)

/-- The per-day list actually handed to `scheduler.plan_day`: the day's
items after name and type recovery, in their given order.  No item is
dropped — in particular pre-existing `move` items remain in the list. -/
def passedPlaces (itinerary : List InItem) (day : Nat) : List InItem :=
  (dayPlaces itinerary day).map (fun it => recoverType (recoverName it))

/-- `plan_itinerary_timeline` (src/tools.py lines 701-766): for each day
number in increasing order it builds `day_places` and repairs missing
`name`/`type` keys (`passedPlaces`), then runs
`day_timeline = scheduler.plan_day(day_places)` without `await` inside a
synchronous function.  `plan_day` is `async def`, so `day_timeline` is a
coroutine object and `for item in day_timeline:` (line 755) raises
`TypeError`, which the bare `except` turns into an error-string return.
The first day group therefore aborts the whole call: the function yields
the error string (modelled `typeError`) for every non-empty itinerary, and
the empty JSON timeline only for an empty itinerary. -/
def plan_itinerary_timeline (itinerary : List InItem) :
    PyResult (List (Nat × Item)) :=
  match daysOf itinerary with
  | [] => .ok []
  | _ :: _ => .typeError

/- ----------------------------------------------------------------------
src/tools.py — optimize_and_get_routes (TSP core)
---------------------------------------------------------------------- -/

/-- Duration-matrix entries: `some v` for an OK element of the Distance
Matrix response, `none` for `float('inf')` (a failed element). -/
abbrev Dur := Option Nat

/-- Addition with infinity absorbing (float + inf = inf). -/
def durAdd : Dur → Dur → Dur
  | some a, some b => some (a + b)
  | _, _ => none

/-- Strict comparison with `none` as positive infinity, matching Python
float comparisons (`inf < inf` is false, `x < inf` is true). -/
def durLt : Dur → Dur → Bool
  | some a, some b => a < b
  | some _, none => true
  | none, _ => false

/-- Non-strict comparison, derived from totality of the order. -/
def durLe (a b : Dur) : Bool := !durLt b a

/-- `sum(duration_matrix[idx[i]][idx[i+1]] for i in range(len(idx)-1))`. -/
def pathCost (M : Nat → Nat → Dur) : List Nat → Dur
  | [] => some 0
  | [_] => some 0
  | a :: b :: rest => durAdd (M a b) (pathCost M (b :: rest))

/-- `itertools.permutations` of a duplicate-free list, in its enumeration
order (pick each remaining element in list order); fueled by the length. -/
def lexPermsAux : Nat → List Nat → List (List Nat)
  | 0, _ => [[]]
  | n + 1, l => l.flatMap (fun x => (lexPermsAux n (l.erase x)).map (fun p => x :: p))

/-- All permutations of `l` in `itertools.permutations` order. -/
def lexPerms (l : List Nat) : List (List Nat) := lexPermsAux l.length l

/-- The minimum-tracking loop of `optimize_and_get_routes`: for each
permutation `p` of the non-first indices, the candidate order is `0 :: p`;
a candidate replaces the best on strictly smaller total duration. -/
def tspScan (M : Nat → Nat → Dur) : List (List Nat) → Dur × List Nat → Dur × List Nat
  | [], acc => acc
  | p :: rest, acc =>
    let cur := 0 :: p
    let d := pathCost M cur
    tspScan M rest (if durLt d acc.1 then (d, cur) else acc)

/-- The optimization step of `optimize_and_get_routes` (src/tools.py lines
642-671): `min_duration = inf`, `best_order_indices = []`, then scan every
permutation of `range(1, n)` with index 0 held first.  The `start_fixed`
and non-fixed branches of the source execute identical code, so a single
definition covers both. -/
def tspSolve (M : Nat → Nat → Dur) (n : Nat) : Dur × List Nat :=
  tspScan M (lexPerms (List.range' 1 (n - 1))) (none, [])

/-- The final index order used for `optimized_places`: the input order when
`min_duration` stayed infinite, the best-found order otherwise. -/
def tspOrder (M : Nat → Nat → Dur) (n : Nat) : List Nat :=
  if (tspSolve M n).1 = none then List.range n else (tspSolve M n).2

/-- Modelled from the spec: the nearest-neighbor heuristic the spec
prescribes for more than 8 free places — "starting from the fixed start (or
place 0), repeatedly move to the nearest unvisited place by matrix value
until all are visited" (ties by first position; the counterexample matrix
has unique minima at every step).  Written from the spec words, to be
compared with the source's optimizer. -/
def nearestUnvisited (M : Nat → Nat → Dur) (current : Nat) : List Nat → Option Nat
  | [] => none
  | u :: us =>
    match nearestUnvisited M current us with
    | none => some u
    | some v => if durLt (M current v) (M current u) then some v else some u

/-- Nearest-neighbor tour construction (spec-modelled), fueled. -/
def nnTourAux (M : Nat → Nat → Dur) : Nat → Nat → List Nat → List Nat
  | 0, _, _ => []
  | _ + 1, _, [] => []
  | fuel + 1, current, unvisited =>
    match nearestUnvisited M current unvisited with
    | none => []
    | some v => v :: nnTourAux M fuel v (unvisited.erase v)

/-- The full nearest-neighbor visiting order from place 0 (spec-modelled). -/
def nnOrder (M : Nat → Nat → Dur) (n : Nat) : List Nat :=
  0 :: nnTourAux M n 0 (List.range' 1 (n - 1))

/-- A 10-place duration matrix (n = 10, hence 9 free places) on which
nearest-neighbor from place 0 is forced through the expensive edge 1 → 2,
while a cheap tour visits 2..9 first and reaches 1 last. -/
def M10tab : List (List Nat) :=
  [[0, 1, 4, 5, 6, 7, 8, 9, 10, 11],
   [1000, 0, 102, 103, 104, 105, 106, 107, 108, 109],
   [1000, 3, 0, 1, 54, 55, 56, 57, 58, 59],
   [1000, 3, 52, 0, 1, 55, 56, 57, 58, 59],
   [1000, 3, 52, 53, 0, 1, 56, 57, 58, 59],
   [1000, 3, 52, 53, 54, 0, 1, 57, 58, 59],
   [1000, 3, 52, 53, 54, 55, 0, 1, 58, 59],
   [1000, 3, 52, 53, 54, 55, 56, 0, 1, 59],
   [1000, 3, 52, 53, 54, 55, 56, 57, 0, 1],
   [1000, 3, 52, 53, 54, 55, 56, 57, 58, 0]]

/-- Matrix accessor for `M10tab` (all in-range entries are finite). -/
def M10 (i j : Nat) : Dur :=
  match M10tab.get? i with
  | some row => row.get? j
  | none => none

/- ----------------------------------------------------------------------
src/tools.py — calculate_distance_time and get_detailed_route
(float arithmetic modelled over ℝ; texts rendered from numbers omitted)
---------------------------------------------------------------------- -/

section GeoModel

open Classical

/-- The dict produced by `get_detailed_route`: mode, duration value in
seconds (`duration_value`), numeric distance in km (content of the
`distance` text), and step summary.  The human-readable duration text is a
rendering of `gdurationValue` and is omitted. -/
structure GeoRoute where
  gmode : Str
  gdurationValue : ℤ
  gdistanceKm : ℝ
  gsteps : List Str

/-- `math.radians`. -/
noncomputable def radiansOf (x : ℝ) : ℝ := x * (Real.pi / 180)

/-- `math.atan2` on the real numbers (standard two-argument arctangent). -/
noncomputable def atan2R (y x : ℝ) : ℝ :=
  if 0 < x then Real.arctan (y / x)
  else if x < 0 then
    (if 0 ≤ y then Real.arctan (y / x) + Real.pi
     else Real.arctan (y / x) - Real.pi)
  else
    (if 0 < y then Real.pi / 2 else if y < 0 then -(Real.pi / 2) else 0)

/-- Python `int(x)`: truncation toward zero. -/
noncomputable def pyTrunc (x : ℝ) : ℤ := if 0 ≤ x then ⌊x⌋ else ⌈x⌉

/-- Per-mode assumed speed (km/h) of `calculate_distance_time`. -/
noncomputable def speedKmh (mode : Str) : ℝ :=
  if mode = sd ("walking") then 3.5
  else if mode = sd ("driving") then 25.0
  else 25.0

/-- The haversine central angle `c` of `calculate_distance_time`. -/
noncomputable def haversineC (start_lat start_lng end_lat end_lng : ℝ) : ℝ :=
  let dLat := radiansOf (end_lat - start_lat)
  let dLng := radiansOf (end_lng - start_lng)
  let a := Real.sin (dLat / 2) * Real.sin (dLat / 2) +
    Real.cos (radiansOf start_lat) * Real.cos (radiansOf end_lat) *
      Real.sin (dLng / 2) * Real.sin (dLng / 2)
  2 * atan2R (Real.sqrt a) (Real.sqrt (1 - a))

/-- `calculate_distance_time` (src/tools.py lines 479-515): great-circle
distance in km and the derived duration in seconds (the formatted
`duration_text` is a rendering of the seconds and is omitted). -/
noncomputable def calculate_distance_time
    (start_lat start_lng end_lat end_lng : ℝ) (mode : Str) : ℝ × ℤ :=
  let distance_km := 6371 * haversineC start_lat start_lng end_lat end_lng
  let duration_hours := distance_km / speedKmh mode
  (distance_km, pyTrunc (duration_hours * 3600))

/-- Step label of the geometric fallback branch, by mode. -/
noncomputable def fallbackLabel (mode : Str) : Str :=
  if mode = sd ("driving") then sd ("자차 이동")
  else if mode = sd ("walking") then sd ("도보 이동")
  else sd ("대중교통/택시 이동")

/-- `get_detailed_route` (src/tools.py lines 518-597).  `hasClient` models
the `GMAPS_CLIENT` null check; `provider` is the parsed result of the
directions API (`none` on provider error or empty result); `geocode`
abstracts `get_coordinates` (`none` when both retries fail).  In the
fallback, `if start_lat and end_lat:` is Python truthiness, so a latitude
of exactly 0.0 is treated like a geocoding failure. -/
noncomputable def get_detailed_route (hasClient : Bool)
    (provider : Option GeoRoute) (geocode : Str → Option (ℝ × ℝ))
    (start_place end_place : Str) (mode : Str) : Option GeoRoute :=
  if hasClient = false then none
  else
    match provider with
    | some r => some r
    | none =>
      match geocode start_place, geocode end_place with
      | some s, some e =>
        if s.1 ≠ 0 ∧ e.1 ≠ 0 then
          let r := calculate_distance_time s.1 s.2 e.1 e.2 mode
          some ⟨mode, r.2, r.1, [fallbackLabel mode]⟩
        else none
      | _, _ => none

/-- Geocoding oracle sending both endpoints to the same coordinates. -/
noncomputable def geoSamePoint : Str → Option (ℝ × ℝ) := fun _ => some (37, 127)

/-- Geocoding oracle where the first endpoint resolves to latitude 0
(truthiness-falsy) and the second to an ordinary point. -/
noncomputable def geoEquator : Str → Option (ℝ × ℝ) := fun p =>
  if p = sd ("A") then some (0, 127) else some (35, 129)

/-- A usable route result: present, with nonnegative duration and
nonnegative distance. -/
def geoOk : Option GeoRoute → Prop
  | some r => 0 ≤ r.gdurationValue ∧ 0 ≤ r.gdistanceKm
  | none => False

end GeoModel

/- ----------------------------------------------------------------------
Concrete fixtures used by witnesses and counterexamples
---------------------------------------------------------------------- -/

/-- Fuzzy-match oracle returning score 0 (below every threshold). -/
def dummyFuzz : Str → Str × Nat := fun t => (t, 0)

/-- A dining venue for day 1. -/
def vA : Venue := ⟨sd ("A식당"), some (sd ("식당")), none, some 1⟩

/-- A cafe venue for day 1. -/
def vB : Venue := ⟨sd ("B카페"), some (sd ("카페")), none, some 1⟩

/-- A day-1 activity input item. -/
def actIt : InItem :=
  ⟨some 1, some (sd ("A식당")), none, none, none, none, none, some (sd ("activity"))⟩

/-- A pre-existing day-1 move input item (type "move", no name key). -/
def movIt : InItem :=
  ⟨some 1, none, none, none, none, none, some (sd ("이동구간")), some (sd ("move"))⟩

/-- Metadata whose region field is the literal string "nan". -/
def mdNan : List (Str × Str) := [(sd ("지역"), sd ("nan"))]

/-- A document whose region metadata is the literal string "nan". -/
def docNan : Doc := ⟨mdNan⟩

/-- Metadata with the Busan/Haeundae address used by the spec example. -/
def mdBusanHaeundae : List (Str × Str) := [(sd ("지역"), sd ("부산광역시 해운대구"))]

/-- An everywhere-finite small duration matrix. -/
def Msmall : Nat → Nat → Dur := fun i j => some (i + j)

/-- An attraction venue for day 2. -/
def vC : Venue := ⟨sd ("C공원"), some (sd ("관광지")), none, some 2⟩

/- ----------------------------------------------------------------------
Theorems.  Helper lemmas are shared; each claim has exactly one named
theorem (plus witness / counterexample where required).
---------------------------------------------------------------------- -/

lemma dropWhile_self_idem (p : Char → Bool) (l : Str) :
    (l.dropWhile p).dropWhile p = l.dropWhile p := by
  induction l with
  | nil => rfl
  | cons c t ih =>
    by_cases h : p c
    · simp [List.dropWhile_cons, h, ih]
    · simp [List.dropWhile_cons, h]

lemma head?_dropWhile_false (p : Char → Bool) (l : Str) (c : Char)
    (h : (l.dropWhile p).head? = some c) : p c = false := by
  induction l with
  | nil => simp at h
  | cons d t ih =>
    by_cases hd : p d
    · exact ih (by simpa [List.dropWhile_cons, hd] using h)
    · simp [List.dropWhile_cons, hd] at h
      simp [← h, hd]

lemma dropWhile_head_false (p : Char → Bool) (l : Str) (c : Char)
    (h : l.head? = some c) (hc : p c = false) : l.dropWhile p = l := by
  cases l with
  | nil => rfl
  | cons d t =>
    simp at h
    subst h
    simp [List.dropWhile_cons, hc]

lemma getLast?_of_suffix {u l : Str} (h : u <:+ l) (hu : u ≠ []) :
    u.getLast? = l.getLast? := by
  obtain ⟨w, rfl⟩ := h
  rw [List.getLast?_append]
  cases hul : u.getLast? with
  | none => exact absurd (List.getLast?_eq_none_iff.mp hul) hu
  | some x => rfl

lemma dropWhile_rev_head (t : Str) (c : Char) (h : t.head? = some c) :
    ((t.reverse.dropWhile wsB).reverse).head? = some c ∨
      (t.reverse.dropWhile wsB).reverse = [] := by
  cases hu : t.reverse.dropWhile wsB with
  | nil => exact Or.inr (by simp [hu])
  | cons d r =>
    left
    have hsuf : t.reverse.dropWhile wsB <:+ t.reverse := List.dropWhile_suffix wsB
    have hlast : (t.reverse.dropWhile wsB).getLast? = t.reverse.getLast? :=
      getLast?_of_suffix hsuf (by simp [hu])
    have hrev : t.reverse.getLast? = t.head? := by
      have := List.head?_reverse t.reverse
      simp only [List.reverse_reverse] at this
      exact this.symm
    rw [List.head?_reverse, ← hu, hlast, hrev, h]

lemma stripL_key (t : Str) (hts : ∀ c, t.head? = some c → wsB c = false) :
    ((t.reverse.dropWhile wsB).reverse).dropWhile wsB
      = (t.reverse.dropWhile wsB).reverse := by
  cases hhead : t.head? with
  | none =>
    cases t with
    | nil => rfl
    | cons a b => simp at hhead
  | some c =>
    rcases dropWhile_rev_head t c hhead with h1 | h1
    · exact dropWhile_head_false wsB _ c h1 (hts c hhead)
    · rw [h1]
      rfl

lemma stripL_idem (s : Str) : stripL (stripL s) = stripL s := by
  unfold stripL
  rw [stripL_key (s.dropWhile wsB) (fun c hc => head?_dropWhile_false wsB s c hc),
      List.reverse_reverse, dropWhile_self_idem]

lemma normalize_canon_fixed : ∀ c ∈ CANON, normalize_region_name c = c := by decide

lemma normalize_alias_maps :
    ∀ p ∈ ALIASES, ∀ a ∈ p.2, normalize_region_name a = p.1 := by decide

lemma alias_fst_canon : ∀ p ∈ ALIASES, p.1 ∈ CANON := by decide

lemma aliasLookup_mem_canon (q c : Str) (h : aliasLookup q = some c) :
    c ∈ CANON := by
  unfold aliasLookup at h
  cases hf : ALIASES.find? (fun p => p.2.contains q) with
  | none => rw [hf] at h; simp at h
  | some p =>
    rw [hf] at h
    simp at h
    have hp : p ∈ ALIASES := List.mem_of_find?_eq_some hf
    rw [← h]
    exact alias_fst_canon p hp

/-- C9: `normalize_region_name` maps every canonical region name to itself,
maps every known alias to its canonical name, returns the whitespace-trimmed
input when no rule matches, and is idempotent on every input string. -/
theorem normalize_region_name_spec :
    (∀ c ∈ CANON, normalize_region_name c = c) ∧
    (∀ p ∈ ALIASES, ∀ a ∈ p.2, normalize_region_name a = p.1) ∧
    (∀ s : Str, stripL s ∉ CANON → aliasLookup (stripL s) = none →
      simpleNameOf (stripL s) ∉ CANON → normalize_region_name s = stripL s) ∧
    (∀ s : Str, normalize_region_name (normalize_region_name s)
      = normalize_region_name s) := by
  refine ⟨normalize_canon_fixed, normalize_alias_maps, ?_, ?_⟩
  · intro s h1 h2 h3
    simp [normalize_region_name, h1, h2, h3]
  · intro s
    by_cases h1 : stripL s ∈ CANON
    · have hs : normalize_region_name s = stripL s := by
        simp [normalize_region_name, h1]
      rw [hs]
      have : stripL (stripL s) = stripL s := stripL_idem s
      simp [normalize_region_name, this, h1]
    · cases h2 : aliasLookup (stripL s) with
      | some c =>
        have hs : normalize_region_name s = c := by
          simp [normalize_region_name, h1, h2]
        rw [hs]
        exact normalize_canon_fixed c (aliasLookup_mem_canon _ c h2)
      | none =>
        by_cases h3 : simpleNameOf (stripL s) ∈ CANON
        · have hs : normalize_region_name s = simpleNameOf (stripL s) := by
            simp [normalize_region_name, h1, h2, h3]
          rw [hs]
          exact normalize_canon_fixed _ h3
        · have hs : normalize_region_name s = stripL s := by
            simp [normalize_region_name, h1, h2, h3]
          rw [hs]
          have hq : stripL (stripL s) = stripL s := stripL_idem s
          simp [normalize_region_name, hq, h1, h2, h3]

/-- Witness for C9: the no-rule branch evaluated on a concrete string. -/
theorem normalize_region_name_spec_witness :
    normalize_region_name (sd ("  hello  ")) = stripL (sd ("  hello  ")) :=
  normalize_region_name_spec.2.2.1 (sd ("  hello  "))
    (by decide) (by decide) (by decide)

/-- Counterexample for C10: with the non-empty allowed set {"a"} and default
`drop_unknown=True`, a document whose region field is the literal "nan" is
kept, because "a" is a substring of "nan" and the substring gate fires
before the unknown-region check. -/
theorem filter_docs_nan_counterexample :
    (mdGet docNan.metadata (sd ("지역"))).getD [] = sd ("nan") ∧
    filter_docs_by_region [docNan] [sd ("a")] (sd ("지역")) true = [docNan] := by
  decide

/-- C10 (amended): `filter_docs_by_region` always returns an order-preserving
subsequence of its input, and for a non-empty allowed set a document whose
region field is missing, empty or the literal "nan" appears in the output
iff it substring-matches some allowed token or `drop_unknown` is false. -/
theorem filter_docs_by_region_spec :
    ∀ (docs : List Doc) (allowed : List Str) (field : Str) (du : Bool),
      (filter_docs_by_region docs allowed field du).Sublist docs ∧
      (allowed ≠ [] → ∀ d ∈ docs,
        (((mdGet d.metadata field).getD []).isEmpty = true ∨
          (mdGet d.metadata field).getD [] = sd ("nan")) →
        (d ∈ filter_docs_by_region docs allowed field du ↔
          (allowed.any (fun t => pyIn t ((mdGet d.metadata field).getD [])) = true ∨
            du = false))) := by
  intro docs allowed field du
  constructor
  · unfold filter_docs_by_region
    by_cases h : allowed.isEmpty
    · simp [h]
    · simp [h, List.filter_sublist]
  · intro hne d hd hunk
    have hne2 : allowed.isEmpty = false := by
      cases allowed with
      | nil => exact absurd rfl hne
      | cons a t => rfl
    unfold filter_docs_by_region
    rw [hne2]
    simp only [Bool.false_eq_true, if_false, List.mem_filter]
    unfold regionKeep
    have hreg : (((mdGet d.metadata field).getD []).isEmpty
        || (mdGet d.metadata field).getD [] == sd ("nan")) = true := by
      rcases hunk with h | h
      · simp [h]
      · simp [h]
    constructor
    · rintro ⟨-, hkeep⟩
      simp only [Bool.or_eq_true, Bool.and_eq_true, Bool.not_eq_eq_eq_not,
        Bool.not_true] at hkeep
      rcases hkeep with h | ⟨-, h⟩
      · exact Or.inl h
      · exact Or.inr (by simpa using h)
    · intro hcase
      refine ⟨hd, ?_⟩
      rcases hcase with h | h
      · simp [h]
      · simp [hreg, h]

/-- Witness for C10: the amended characterization applied to the concrete
"nan" document, concluding that it is kept. -/
theorem filter_docs_by_region_spec_witness :
    docNan ∈ filter_docs_by_region [docNan] [sd ("a")] (sd ("지역")) true :=
  ((filter_docs_by_region_spec [docNan] [sd ("a")] (sd ("지역")) true).2
    (by decide) docNan (by decide) (by decide)).mpr (Or.inl (by decide))

/-- Counterexample for C5: a region constraint that parses to the single
token "nan" against a candidate whose region text is the literal "nan" —
a parsed sub-part of the address text matches the token, yet the candidate
is rejected, because the unknown-region guard fires first. -/
theorem region_gate_counterexample :
    computeTargets (sd ("nan")) = [sd ("nan")] ∧
    specSingleTokenMatch (sd ("nan")) mdNan = true ∧
    isValidRegion (computeTargets (sd ("nan"))) mdNan = false := by
  decide

/-- C5 (amended): the region gate of `RegionPreFilteringRetriever` accepts
everything when no targets are given; for candidates whose region text is
known (non-empty and not "nan") a single-token constraint accepts whenever
some parsed sub-part matches the token in either containment direction, and
a multi-token constraint accepts only if every token occurs in the joined
parsed text; candidates with unknown region text are rejected whenever the
constraint is non-empty; and the two Busan examples behave as specified. -/
theorem region_gate_spec :
    (∀ md : List (Str × Str), isValidRegion [] md = true) ∧
    (∀ (t : Str) (md : List (Str × Str)),
      ((rawRegionText md).isEmpty = false ∧ rawRegionText md ≠ sd ("nan")) →
      specSingleTokenMatch t md = true → isValidRegion [t] md = true) ∧
    (∀ (ts : List Str) (md : List (Str × Str)), 2 ≤ ts.length →
      isValidRegion ts md = true →
      ∀ t ∈ ts, pyIn t (joinSpace (docPartsOf (rawRegionText md))) = true) ∧
    (∀ (ts : List Str) (md : List (Str × Str)), ts ≠ [] →
      ((rawRegionText md).isEmpty = true ∨ rawRegionText md = sd ("nan")) →
      isValidRegion ts md = false) ∧
    isValidRegion (computeTargets (sd ("부산"))) mdBusanHaeundae = true ∧
    isValidRegion (computeTargets (sd ("부산 해운대")))
      [(sd ("지역"), sd ("부산광역시"))] = false := by
  refine ⟨?_, ?_, ?_, ?_, by decide, by decide⟩
  · intro md
    rfl
  · intro t md hknown hmatch
    unfold isValidRegion
    have h1 : ((rawRegionText md).isEmpty || rawRegionText md == sd ("nan")) = false := by
      simp [hknown.1, hknown.2]
    simp only [List.isEmpty_cons, Bool.false_eq_true, if_false, h1]
    exact hmatch
  · intro ts md hlen hvalid t ht
    unfold isValidRegion at hvalid
    cases ts with
    | nil => simp at hlen
    | cons a rest =>
      cases rest with
      | nil => simp at hlen
      | cons b rest2 =>
        simp only [List.isEmpty_cons, Bool.false_eq_true, if_false] at hvalid
        by_cases hg : ((rawRegionText md).isEmpty || rawRegionText md == sd ("nan")) = true
        · rw [hg] at hvalid
          simp at hvalid
        · rw [Bool.eq_false_iff.mpr hg] at hvalid
          simp only [Bool.false_eq_true, if_false] at hvalid
          rw [List.all_eq_true] at hvalid
          exact hvalid t ht
  · intro ts md hne hunk
    unfold isValidRegion
    have h0 : ts.isEmpty = false := by
      cases ts with
      | nil => exact absurd rfl hne
      | cons a t => rfl
    have h1 : ((rawRegionText md).isEmpty || rawRegionText md == sd ("nan")) = true := by
      rcases hunk with h | h
      · simp [h]
      · simp [h]
    rw [h0]
    simp only [Bool.false_eq_true, if_false, h1, if_true]

/-- Witness for C5: the single-token arm applied to the Busan example. -/
theorem region_gate_spec_witness :
    isValidRegion [sd ("부산")] mdBusanHaeundae = true :=
  region_gate_spec.2.1 (sd ("부산")) mdBusanHaeundae (by decide) (by decide)

lemma foldl_acc_union {α : Type} (step : Finset Str → α → Finset Str)
    (hstep : ∀ fs x, step fs x = fs ∪ step ∅ x) :
    ∀ (l : List α) (acc : Finset Str),
      l.foldl step acc = acc ∪ l.foldl step ∅ := by
  intro l
  induction l with
  | nil => intro acc; simp
  | cons x t ih =>
    intro acc
    simp only [List.foldl_cons]
    rw [ih (step acc x), ih (step ∅ x), hstep acc x, Finset.union_assoc]

lemma tier1From_acc (query : Str) (acc : Finset Str) :
    tier1From query acc = acc ∪ tier1From query ∅ := by
  unfold tier1From
  apply foldl_acc_union
  intro fs x
  by_cases h : pyIn x query
  · simp [h, Finset.insert_eq, Finset.union_comm]
  · simp [h]

lemma tier2From_acc (query : Str) (acc : Finset Str) :
    tier2From query acc = acc ∪ tier2From query ∅ := by
  unfold tier2From
  apply foldl_acc_union
  intro fs x
  by_cases h : pyIn x.1 query
  · simp [h]
  · simp [h]

lemma tier3From_acc (q : Str) (acc : Finset Str) :
    tier3From q acc = acc ∪ tier3From q ∅ := by
  unfold tier3From
  apply foldl_acc_union
  intro fs x
  by_cases h : x.2.any (fun a => pyIn (lowerS a) q)
  · simp [h, Finset.insert_eq, Finset.union_comm]
  · simp [h]

lemma tier4From_acc (oracle : Str → Str × Nat) (threshold : Nat)
    (tokens : List Str) (acc : Finset Str) :
    tier4From oracle threshold tokens acc
      = acc ∪ tier4From oracle threshold tokens ∅ := by
  unfold tier4From
  apply foldl_acc_union
  intro fs x
  by_cases h1 : x.length < 2
  · simp [h1]
  · by_cases h2 : threshold ≤ (oracle x).2
    · simp [h1, h2, Finset.insert_eq, Finset.union_comm]
    · simp [h1, h2]

/-- Counterexample for C4: on the query "서울 수도권" tier 1 already matches
(it yields {서울}), yet the final result is strictly larger and differs from
the gated resolution the spec describes — later tiers ran and contributed
even though an earlier tier had matched. -/
theorem parse_regions_gating_counterexample :
    tier1From (sd ("서울 수도권")) ∅ ≠ ∅ ∧
    specGatedResolve dummyFuzz (sd ("서울 수도권")) false 85
      = tier1From (sd ("서울 수도권")) ∅ ∧
    parse_regions_from_query dummyFuzz (sd ("서울 수도권")) false 85
      ≠ specGatedResolve dummyFuzz (sd ("서울 수도권")) false 85 := by
  decide

/-- C4 (amended): `parse_regions_from_query` attempts all four tiers
unconditionally, in order, and returns the union of their individual
results; no tier is gated on earlier tiers being empty. -/
theorem parse_regions_from_query_spec :
    ∀ (oracle : Str → Str × Nat) (query : Str) (fuzzy : Bool) (threshold : Nat),
      parse_regions_from_query oracle query fuzzy threshold
        = tier1From query ∅ ∪ tier2From query ∅ ∪ tier3From (lowerS query) ∅ ∪
          (if fuzzy then
            tier4From oracle threshold (tokenizeQuery (lowerS query)) ∅
          else ∅) := by
  intro oracle query fuzzy threshold
  unfold parse_regions_from_query
  cases fuzzy with
  | false =>
    simp only [Bool.false_eq_true, if_false]
    rw [tier3From_acc, tier2From_acc, Finset.union_empty]
  | true =>
    simp only [if_true]
    rw [tier4From_acc, tier3From_acc, tier2From_acc]

lemma parseStartTime_lt (s : Str) : parseStartTime s < 1440 := by
  unfold parseStartTime
  split
  · rename_i h m heq
    by_cases hh : (decide (h ≤ 23) && decide (m ≤ 59)) = true
    · simp only [hh, if_true]
      simp only [Bool.and_eq_true, decide_eq_true_eq] at hh
      omega
    · simp only [Bool.not_eq_true] at hh
      simp only [hh, Bool.false_eq_true, if_false]
      norm_num
  · norm_num

/-- C1 (code bug): the claimed alternating timeline is exactly what the
loop body of `plan_day` is written to build, but `await
get_detailed_route(...)` awaits a synchronous function, so the awaited
coroutine raises `TypeError` for every venue list of length at least 2 and
returns a timeline only for empty and single-venue lists (a single
activity, no move items ever). -/
theorem plan_day_await_type_error :
    (∀ (startMin : Nat) (places : List Venue), 2 ≤ places.length →
      plan_day startMin places = PyResult.typeError) ∧
    plan_day 540 [vA] = PyResult.ok
      [Item.activity (sd ("A식당")) (sd ("식당")) 540 630 90 []] ∧
    plan_day 540 [vA, vB] = PyResult.typeError := by
  refine ⟨?_, by decide, by decide⟩
  intro startMin places hlen
  cases places with
  | nil => simp at hlen
  | cons a t =>
    cases t with
    | nil => simp at hlen
    | cons b r => rfl

/-- Witness for C1: the general multi-venue crash instantiated on a
concrete two-venue list. -/
theorem plan_day_await_type_error_witness :
    plan_day 600 [vB, vA] = PyResult.typeError :=
  plan_day_await_type_error.1 600 [vB, vA] (by decide)

/-- C2 (code bug): the day-start reset logic runs before the failing
`await`, so on the only reachable inputs — single-venue day lists — the
returned first item starts at the caller-configured time on day 1 and at
the canonical minute 600 (10:00) on every day numbered 2 or higher, for
every caller string; but any day with two or more venues raises `TypeError`
and returns no first item at all. -/
theorem plan_day_start_reset_observable :
    (∀ (s : Str) (v : Venue), v.vday.getD 1 = 1 →
      firstStart (plan_day (parseStartTime s) [v]) = some (parseStartTime s)) ∧
    (∀ (s : Str) (v : Venue), 2 ≤ v.vday.getD 1 →
      firstStart (plan_day (parseStartTime s) [v]) = some 600) ∧
    plan_day (parseStartTime (sd ("09:30"))) [vC, vC] = PyResult.typeError := by
  refine ⟨?_, ?_, by decide⟩
  · intro s v hday
    have h60 : parseStartTime s * 60 / 60 = parseStartTime s :=
      Nat.mul_div_cancel _ (by norm_num)
    simp [plan_day, firstStart, itemStart, dayStartSeconds, hday, hmOf, h60,
      Nat.mod_eq_of_lt (parseStartTime_lt s)]
  · intro s v hday
    have hne : v.vday.getD 1 ≠ 1 := by omega
    simp [plan_day, firstStart, itemStart, dayStartSeconds, hne, hmOf]

/-- Witness for C2: a day-1 venue starts at the configured 09:30 and a
day-2 venue starts at minute 600. -/
theorem plan_day_start_reset_observable_witness :
    firstStart (plan_day (parseStartTime (sd ("09:30"))) [vA])
      = some (parseStartTime (sd ("09:30"))) ∧
    firstStart (plan_day (parseStartTime (sd ("09:30"))) [vC]) = some 600 :=
  ⟨plan_day_start_reset_observable.1 (sd ("09:30")) vA (by decide),
   plan_day_start_reset_observable.2.1 (sd ("09:30")) vC (by decide)⟩

lemma recover_preserves_itype (it : InItem) :
    (recoverType (recoverName it)).itype = some (it.itype.getD (sd ("activity"))) := by
  cases it with
  | mk d n p pn t l ds ty =>
    cases n <;> cases ty <;> rfl

lemma mem_insSorted (a x : Nat) : ∀ l : List Nat,
    x ∈ insSorted a l ↔ x = a ∨ x ∈ l := by
  intro l
  induction l with
  | nil => simp [insSorted]
  | cons b t ih =>
    by_cases h : a ≤ b
    · simp [insSorted, h]
    · simp [insSorted, h, ih]
      tauto

lemma pairwise_insSorted (a : Nat) : ∀ l : List Nat,
    l.Pairwise (· ≤ ·) → (insSorted a l).Pairwise (· ≤ ·) := by
  intro l
  induction l with
  | nil => intro _; simp [insSorted]
  | cons b t ih =>
    intro hp
    rw [List.pairwise_cons] at hp
    by_cases h : a ≤ b
    · simp only [insSorted, h, if_true]
      rw [List.pairwise_cons]
      refine ⟨?_, List.pairwise_cons.mpr hp⟩
      intro x hx
      rcases List.mem_cons.mp hx with rfl | hx
      · exact h
      · exact le_trans h (hp.1 x hx)
    · simp only [insSorted, h, if_false]
      rw [List.pairwise_cons]
      refine ⟨?_, ih hp.2⟩
      intro x hx
      rcases (mem_insSorted a x t).mp hx with rfl | hx
      · omega
      · exact hp.1 x hx

lemma pairwise_sortNat : ∀ l : List Nat, (sortNat l).Pairwise (· ≤ ·) := by
  intro l
  induction l with
  | nil => simp [sortNat]
  | cons a t ih => exact pairwise_insSorted a (sortNat t) ih

lemma mem_sortNat (x : Nat) : ∀ l : List Nat, x ∈ sortNat l ↔ x ∈ l := by
  intro l
  induction l with
  | nil => simp [sortNat]
  | cons a t ih => simp [sortNat, mem_insSorted, ih]

lemma daysOf_ne_nil (itinerary : List InItem) (h : itinerary ≠ []) :
    daysOf itinerary ≠ [] := by
  cases itinerary with
  | nil => exact absurd rfl h
  | cons it rest =>
    have hmem : it.iday.getD 1 ∈ daysOf (it :: rest) := by
      unfold daysOf
      rw [mem_sortNat, List.mem_dedup]
      exact List.mem_map_of_mem _ (by simp)
    exact List.ne_nil_of_mem hmem

/-- Counterexample for C8: a day-1 itinerary containing a pre-existing
`move` item.  The item is not dropped — the per-day list built for the
scheduler still contains it, typed "move" — and the function as a whole
emits no stamped items anyway: the unawaited coroutine raises `TypeError`
and the call returns the error string. -/
theorem plan_itinerary_move_counterexample :
    (passedPlaces [actIt, movIt] 1).map (fun it => it.itype)
      = [some (sd ("activity")), some (sd ("move"))] ∧
    plan_itinerary_timeline [actIt, movIt] = PyResult.typeError := by
  decide

/-- C8 (amended): `plan_itinerary_timeline` computes the day groups in
increasing order and repairs missing `name`/`type` keys without dropping
pre-existing `move` items — the per-day list built for the scheduler keeps
every item of the day, with present type values preserved — but the
scheduler call is made without awaiting the async `plan_day`, so iterating
the coroutine raises `TypeError` and the function returns an error string:
it emits no timeline items for any non-empty itinerary, and only the empty
timeline for an empty one. -/
theorem plan_itinerary_timeline_spec :
    ∀ (itinerary : List InItem) (day : Nat),
      (passedPlaces itinerary day).length = (dayPlaces itinerary day).length ∧
      (passedPlaces itinerary day).map (fun it => it.itype)
        = (dayPlaces itinerary day).map
            (fun it => some (it.itype.getD (sd ("activity")))) ∧
      (daysOf itinerary).Pairwise (· ≤ ·) ∧
      (itinerary ≠ [] →
        plan_itinerary_timeline itinerary = PyResult.typeError) ∧
      plan_itinerary_timeline [] = PyResult.ok [] := by
  intro itinerary day
  refine ⟨?_, ?_, pairwise_sortNat _, ?_, rfl⟩
  · simp [passedPlaces]
  · unfold passedPlaces
    rw [List.map_map]
    apply List.map_congr_left
    intro it _
    exact recover_preserves_itype it
  · intro hne
    unfold plan_itinerary_timeline
    cases hd : daysOf itinerary with
    | nil => exact absurd hd (daysOf_ne_nil itinerary hne)
    | cons a t => rfl

/-- Witness for C8: the error outcome instantiated on the concrete
two-item fixture itinerary. -/
theorem plan_itinerary_timeline_spec_witness :
    plan_itinerary_timeline [actIt, movIt] = PyResult.typeError :=
  (plan_itinerary_timeline_spec [actIt, movIt] 1).2.2.2.1
    (List.cons_ne_nil _ _)

lemma durLt_toLe {a b : Dur} (h : durLt a b = true) : durLe a b = true := by
  cases a <;> cases b <;> simp [durLt, durLe] at * <;> omega

lemma durLe_refl (a : Dur) : durLe a a = true := by
  cases a <;> simp [durLe, durLt]

lemma durLe_of_not_lt {a b : Dur} (h : ¬ durLt a b = true) : durLe b a = true := by
  cases a <;> cases b <;> simp [durLt, durLe] at * <;> omega

lemma durLe_trans {a b c : Dur} (h1 : durLe a b = true) (h2 : durLe b c = true) :
    durLe a c = true := by
  cases a <;> cases b <;> cases c <;> simp [durLe, durLt] at * <;> omega

lemma durLe_some_ne_none {a : Dur} {c : Nat} (h : durLe a (some c) = true) :
    a ≠ none := by
  cases a
  · simp [durLe, durLt] at h
  · simp

lemma durLe_some_some {v c : Nat} (h : durLe (some v) (some c) = true) : v ≤ c := by
  simp [durLe, durLt] at h
  omega

lemma tspScan_le_acc (M : Nat → Nat → Dur) :
    ∀ (ps : List (List Nat)) (acc : Dur × List Nat),
      durLe (tspScan M ps acc).1 acc.1 = true := by
  intro ps
  induction ps with
  | nil => intro acc; exact durLe_refl _
  | cons p rest ih =>
    intro acc
    simp only [tspScan]
    by_cases h : durLt (pathCost M (0 :: p)) acc.1 = true
    · rw [if_pos h]
      exact durLe_trans (ih _) (durLt_toLe h)
    · rw [if_neg h]
      exact ih acc

lemma tspScan_le_mem (M : Nat → Nat → Dur) :
    ∀ (ps : List (List Nat)) (acc : Dur × List Nat) (p : List Nat), p ∈ ps →
      durLe (tspScan M ps acc).1 (pathCost M (0 :: p)) = true := by
  intro ps
  induction ps with
  | nil => intro acc p hp; simp at hp
  | cons q rest ih =>
    intro acc p hp
    rcases List.mem_cons.mp hp with rfl | hp
    · simp only [tspScan]
      by_cases h : durLt (pathCost M (0 :: p)) acc.1 = true
      · rw [if_pos h]
        exact tspScan_le_acc M rest _
      · rw [if_neg h]
        exact durLe_trans (tspScan_le_acc M rest acc) (durLe_of_not_lt h)
    · simp only [tspScan]
      exact ih _ p hp

lemma tspScan_achieved (M : Nat → Nat → Dur) :
    ∀ (ps : List (List Nat)) (acc : Dur × List Nat),
      (acc.1 = pathCost M acc.2 ∨ (acc.1 = none ∧ acc.2 = [])) →
      ((tspScan M ps acc).1 = pathCost M (tspScan M ps acc).2 ∨
        ((tspScan M ps acc).1 = none ∧ (tspScan M ps acc).2 = [])) := by
  intro ps
  induction ps with
  | nil => intro acc h; exact h
  | cons q rest ih =>
    intro acc h
    simp only [tspScan]
    by_cases hlt : durLt (pathCost M (0 :: q)) acc.1 = true
    · rw [if_pos hlt]
      exact ih _ (Or.inl rfl)
    · rw [if_neg hlt]
      exact ih _ h

lemma lexPermsAux_mem :
    ∀ (fuel : Nat) (l p : List Nat), p.Perm l → l.length = fuel →
      p ∈ lexPermsAux fuel l := by
  intro fuel
  induction fuel with
  | zero =>
    intro l p hp hl
    have hl0 : l = [] := List.length_eq_zero.mp hl
    subst hl0
    have : p = [] := hp.eq_nil
    simp [this, lexPermsAux]
  | succ n ih =>
    intro l p hp hl
    cases p with
    | nil =>
      have := hp.length_eq
      simp [hl] at this
    | cons x p2 =>
      have hx : x ∈ l ∧ p2.Perm (l.erase x) :=
        (List.cons_perm_iff_perm_erase).mp hp
      have hlen : (l.erase x).length = n := by
        rw [List.length_erase_of_mem hx.1, hl]
        omega
      simp only [lexPermsAux, List.mem_flatMap]
      exact ⟨x, hx.1, List.mem_map.mpr ⟨p2, ih (l.erase x) p2 hx.2 hlen, rfl⟩⟩

lemma perm_mem_lexPerms (l p : List Nat) (h : p.Perm l) : p ∈ lexPerms l :=
  lexPermsAux_mem l.length l p h rfl

lemma durAdd_ne_none {a b : Dur} (ha : a ≠ none) (hb : b ≠ none) :
    durAdd a b ≠ none := by
  cases a <;> cases b <;> simp [durAdd] at *

lemma pathCost_ne_none (M : Nat → Nat → Dur) (n : Nat)
    (hM : ∀ i j, i < n → j < n → M i j ≠ none) :
    ∀ l : List Nat, (∀ a ∈ l, a < n) → pathCost M l ≠ none := by
  intro l
  induction l with
  | nil => intro _; simp [pathCost]
  | cons a t ih =>
    intro hmem
    cases t with
    | nil => simp [pathCost]
    | cons b r =>
      have h1 : M a b ≠ none :=
        hM a b (hmem a (by simp)) (hmem b (by simp))
      have h2 : pathCost M (b :: r) ≠ none :=
        ih (fun x hx => hmem x (List.mem_cons_of_mem a hx))
      exact durAdd_ne_none h1 h2

lemma range_eq_cons_range' (n : Nat) (h : 1 ≤ n) :
    List.range n = 0 :: List.range' 1 (n - 1) := by
  obtain ⟨m, rfl⟩ : ∃ m, n = m + 1 := ⟨n - 1, by omega⟩
  rw [List.range_eq_range']
  simp [List.range'_succ]

/-- C7: when every in-range matrix entry is finite, the exhaustive-search
optimizer returns a total duration that is at most the total of the
identity (input-order) permutation, which is itself in the search space. -/
theorem tsp_never_worse_than_identity :
    ∀ (n : Nat) (M : Nat → Nat → Dur), 2 ≤ n →
      (∀ i j, i < n → j < n → M i j ≠ none) →
      durLe (tspSolve M n).1 (pathCost M (List.range n)) = true ∧
      (tspSolve M n).1 ≠ none := by
  intro n M hn hM
  have hid : List.range' 1 (n - 1) ∈ lexPerms (List.range' 1 (n - 1)) :=
    perm_mem_lexPerms _ _ (List.Perm.refl _)
  have hle : durLe (tspSolve M n).1 (pathCost M (0 :: List.range' 1 (n - 1)))
      = true := tspScan_le_mem M _ _ _ hid
  have hrange : List.range n = 0 :: List.range' 1 (n - 1) :=
    range_eq_cons_range' n (by omega)
  rw [← hrange] at hle
  refine ⟨hle, ?_⟩
  have hfin : pathCost M (List.range n) ≠ none :=
    pathCost_ne_none M n hM _ (fun a ha => List.mem_range.mp ha)
  cases hcost : pathCost M (List.range n) with
  | none => exact absurd hcost hfin
  | some c =>
    rw [hcost] at hle
    exact durLe_some_ne_none hle

/-- Witness for C7: the bound evaluated on a concrete 3-place matrix. -/
theorem tsp_never_worse_than_identity_witness :
    durLe (tspSolve Msmall 3).1 (pathCost Msmall (List.range 3)) = true ∧
    (tspSolve Msmall 3).1 ≠ none :=
  tsp_never_worse_than_identity 3 Msmall (by norm_num)
    (fun i j _ _ => by simp [Msmall])

/-- Counterexample for C3: a 10-place instance (9 free places, above the
claimed cutoff of 8).  The optimizer still performs exhaustive search and
returns an order different from the spec's nearest-neighbor tour: the
nearest-neighbor order costs 110 while the search space contains an order
of cost 14, so the returned order cannot be the nearest-neighbor one. -/
theorem optimize_no_heuristic_counterexample :
    tspOrder M10 10 ≠ nnOrder M10 10 := by
  have hq : ([2, 3, 4, 5, 6, 7, 8, 9, 1] : List Nat).Perm (List.range' 1 9) := by
    decide
  have hmem : ([2, 3, 4, 5, 6, 7, 8, 9, 1] : List Nat)
      ∈ lexPerms (List.range' 1 9) := perm_mem_lexPerms _ _ hq
  have hle : durLe (tspSolve M10 10).1
      (pathCost M10 (0 :: [2, 3, 4, 5, 6, 7, 8, 9, 1])) = true :=
    tspScan_le_mem M10 _ _ _ hmem
  have hcost14 : pathCost M10 (0 :: [2, 3, 4, 5, 6, 7, 8, 9, 1]) = some 14 := by
    decide
  rw [hcost14] at hle
  have hne : (tspSolve M10 10).1 ≠ none := durLe_some_ne_none hle
  have hach := tspScan_achieved M10 (lexPerms (List.range' 1 9)) (none, [])
    (Or.inr ⟨rfl, rfl⟩)
  have hach2 : (tspSolve M10 10).1 = pathCost M10 (tspSolve M10 10).2 := by
    rcases hach with h | h
    · exact h
    · exact absurd h.1 hne
  have horder : tspOrder M10 10 = (tspSolve M10 10).2 := by
    unfold tspOrder
    rw [if_neg hne]
  intro hcontra
  rw [horder] at hcontra
  have hnncost : pathCost M10 (nnOrder M10 10) = some 110 := by decide
  rw [hcontra, hnncost] at hach2
  cases hval : (tspSolve M10 10).1 with
  | none => exact hne hval
  | some v =>
    rw [hval] at hle hach2
    have h1 : v ≤ 14 := durLe_some_some hle
    have h2 : v = 110 := by
      simpa using hach2
    omega

/-- C3 (amended): the optimizer has no size cutoff and no nearest-neighbor
fallback — for every number of places it pins index 0 first and performs
exhaustive search: its tracked minimum is at most the cost of `0 :: p` for
every permutation `p` of the remaining indices, and it is attained by the
returned order (unless no candidate was finite, in which case the minimum
stays infinite and the order empty, and the input order is used). -/
theorem optimize_exhaustive_search_spec :
    ∀ (n : Nat) (M : Nat → Nat → Dur) (p : List Nat),
      p.Perm (List.range' 1 (n - 1)) →
      durLe (tspSolve M n).1 (pathCost M (0 :: p)) = true ∧
      ((tspSolve M n).1 = pathCost M (tspSolve M n).2 ∨
        ((tspSolve M n).1 = none ∧ (tspSolve M n).2 = [] ∧
          tspOrder M n = List.range n)) := by
  intro n M p hp
  constructor
  · exact tspScan_le_mem M _ _ _ (perm_mem_lexPerms _ _ hp)
  · have h := tspScan_achieved M (lexPerms (List.range' 1 (n - 1))) (none, [])
      (Or.inr ⟨rfl, rfl⟩)
    rcases h with h | h
    · exact Or.inl h
    · refine Or.inr ⟨h.1, h.2, ?_⟩
      have h1 : (tspSolve M n).1 = none := h.1
      unfold tspOrder
      rw [if_pos h1]

/-- Witness for C3's amended statement: evaluated at a concrete 3-place
matrix and the non-identity permutation [2, 1]. -/
theorem optimize_exhaustive_search_spec_witness :
    durLe (tspSolve Msmall 3).1 (pathCost Msmall (0 :: [2, 1])) = true ∧
    ((tspSolve Msmall 3).1 = pathCost Msmall (tspSolve Msmall 3).2 ∨
      ((tspSolve Msmall 3).1 = none ∧ (tspSolve Msmall 3).2 = [] ∧
        tspOrder Msmall 3 = List.range 3)) :=
  optimize_exhaustive_search_spec 3 Msmall [2, 1] (by decide)

lemma arctan_nonneg_of_nonneg {z : ℝ} (h : 0 ≤ z) : 0 ≤ Real.arctan z := by
  have hm := Real.arctan_strictMono.monotone h
  rwa [Real.arctan_zero] at hm

lemma atan2R_nonneg (y x : ℝ) (hy : 0 ≤ y) : 0 ≤ atan2R y x := by
  unfold atan2R
  split_ifs with h1 h2 h3 h4
  · exact arctan_nonneg_of_nonneg (div_nonneg hy h1.le)
  · have harc := Real.neg_pi_div_two_lt_arctan (y / x)
    have hpi := Real.pi_pos
    linarith
  · have hpi := Real.pi_pos
    linarith
  · exact absurd h4 (not_lt.mpr hy)
  · exact le_refl 0

lemma haversineC_nonneg (a b c d : ℝ) : 0 ≤ haversineC a b c d := by
  unfold haversineC
  have h := atan2R_nonneg
    (Real.sqrt (Real.sin (radiansOf (c - a) / 2) * Real.sin (radiansOf (c - a) / 2) +
      Real.cos (radiansOf a) * Real.cos (radiansOf c) *
        Real.sin (radiansOf (d - b) / 2) * Real.sin (radiansOf (d - b) / 2)))
    (Real.sqrt (1 - (Real.sin (radiansOf (c - a) / 2) * Real.sin (radiansOf (c - a) / 2) +
      Real.cos (radiansOf a) * Real.cos (radiansOf c) *
        Real.sin (radiansOf (d - b) / 2) * Real.sin (radiansOf (d - b) / 2))))
    (Real.sqrt_nonneg _)
  linarith

lemma speedKmh_pos (mode : Str) : 0 < speedKmh mode := by
  unfold speedKmh
  split_ifs <;> norm_num

lemma pyTrunc_nonneg {x : ℝ} (h : 0 ≤ x) : 0 ≤ pyTrunc x := by
  unfold pyTrunc
  rw [if_pos h]
  exact Int.floor_nonneg.mpr h

lemma haversineC_same (lat lng : ℝ) : haversineC lat lng lat lng = 0 := by
  unfold haversineC
  simp only [sub_self]
  unfold radiansOf
  simp only [zero_mul, zero_div, Real.sin_zero, mul_zero, zero_add, add_zero,
    zero_mul, Real.sqrt_zero, sub_zero, Real.sqrt_one]
  unfold atan2R
  rw [if_pos (by norm_num : (0:ℝ) < 1)]
  simp [Real.arctan_zero]

lemma calc_same_zero (lat lng : ℝ) (mode : Str) :
    calculate_distance_time lat lng lat lng mode = (0, 0) := by
  unfold calculate_distance_time
  rw [haversineC_same]
  simp only [mul_zero, zero_div, zero_mul]
  rw [show pyTrunc 0 = 0 by unfold pyTrunc; rw [if_pos le_rfl]; simp]

/-- Reduction of `get_detailed_route` in the provider-failure case with
both endpoints geocoded. -/
lemma get_detailed_route_eq (geocode : Str → Option (ℝ × ℝ))
    (sp ep mode : Str) (s e : ℝ × ℝ)
    (h1 : geocode sp = some s) (h2 : geocode ep = some e) :
    get_detailed_route true none geocode sp ep mode =
      (if s.1 ≠ 0 ∧ e.1 ≠ 0 then
        some ⟨mode, (calculate_distance_time s.1 s.2 e.1 e.2 mode).2,
          (calculate_distance_time s.1 s.2 e.1 e.2 mode).1, [fallbackLabel mode]⟩
      else none) := by
  unfold get_detailed_route
  rw [if_neg (by simp), h1, h2]

/-- Counterexample for C6: (a) when both endpoints geocode to the same
coordinates the fallback returns a result whose duration value is 0, not
positive; (b) when one endpoint geocodes successfully but to latitude 0.0,
Python truthiness treats it as a failure and the caller gets nothing even
though both endpoints geocoded. -/
theorem route_fallback_counterexample :
    (get_detailed_route true none geoSamePoint (sd ("A")) (sd ("B"))
        (sd ("transit"))).map GeoRoute.gdurationValue = some 0 ∧
    get_detailed_route true none geoEquator (sd ("A")) (sd ("B"))
        (sd ("transit")) = none := by
  have hA : geoEquator (sd ("A")) = some (0, 127) := by
    unfold geoEquator
    rw [if_pos rfl]
  have hB : geoEquator (sd ("B")) = some (35, 129) := by
    unfold geoEquator
    rw [if_neg (by decide)]
  constructor
  · rw [get_detailed_route_eq geoSamePoint (sd ("A")) (sd ("B")) (sd ("transit"))
      (37, 127) (37, 127) rfl rfl]
    rw [if_pos ⟨by norm_num, by norm_num⟩]
    rw [calc_same_zero]
    rfl
  · rw [get_detailed_route_eq geoEquator (sd ("A")) (sd ("B")) (sd ("transit"))
      (0, 127) (35, 129) hA hB]
    rw [if_neg (by simp)]

/-- C6 (amended): when the directions provider fails, `get_detailed_route`
returns a non-null geometric estimate with duration ≥ 0 and distance ≥ 0
whenever both endpoints geocode to coordinates with truthy (nonzero)
latitudes, and returns `None` (no usable estimate) whenever either endpoint
fails to geocode. -/
theorem route_fallback_spec :
    ∀ (geocode : Str → Option (ℝ × ℝ)) (sp ep mode : Str),
      (∀ s e : ℝ × ℝ, geocode sp = some s → geocode ep = some e →
        s.1 ≠ 0 → e.1 ≠ 0 →
        geoOk (get_detailed_route true none geocode sp ep mode)) ∧
      ((geocode sp = none ∨ geocode ep = none) →
        get_detailed_route true none geocode sp ep mode = none) := by
  intro geocode sp ep mode
  constructor
  · intro s e h1 h2 hs he
    rw [get_detailed_route_eq geocode sp ep mode s e h1 h2]
    rw [if_pos ⟨hs, he⟩]
    have hdist : 0 ≤ (calculate_distance_time s.1 s.2 e.1 e.2 mode).1 := by
      unfold calculate_distance_time
      have := haversineC_nonneg s.1 s.2 e.1 e.2
      have h6371 : (0:ℝ) ≤ 6371 := by norm_num
      exact mul_nonneg h6371 this
    have hdur : 0 ≤ (calculate_distance_time s.1 s.2 e.1 e.2 mode).2 := by
      unfold calculate_distance_time
      apply pyTrunc_nonneg
      have hsp := speedKmh_pos mode
      have hhav := haversineC_nonneg s.1 s.2 e.1 e.2
      have : 0 ≤ (6371 : ℝ) * haversineC s.1 s.2 e.1 e.2 / speedKmh mode :=
        div_nonneg (mul_nonneg (by norm_num) hhav) hsp.le
      have h3600 : (0:ℝ) ≤ 3600 := by norm_num
      exact mul_nonneg this h3600
    exact ⟨hdur, hdist⟩
  · intro h
    rcases h with h | h
    · cases hep : geocode ep with
      | none =>
        unfold get_detailed_route
        rw [if_neg (by simp), h, hep]
      | some e =>
        unfold get_detailed_route
        rw [if_neg (by simp), h, hep]
    · cases hsp : geocode sp with
      | none =>
        unfold get_detailed_route
        rw [if_neg (by simp), hsp, h]
      | some s =>
        unfold get_detailed_route
        rw [if_neg (by simp), hsp, h]

/-- Witness for C6: the fallback result at the concrete same-point geocoder
is present with nonnegative duration and distance. -/
theorem route_fallback_spec_witness :
    geoOk (get_detailed_route true none geoSamePoint (sd ("A")) (sd ("B"))
      (sd ("transit"))) :=
  (route_fallback_spec geoSamePoint (sd ("A")) (sd ("B")) (sd ("transit"))).1
    (37, 127) (37, 127) rfl rfl (by norm_num) (by norm_num)
